import Mathlib

/-!
Verification of the hekate supervision and routing engine against its
natural-language specification.  The Python sources are shallowly embedded:
redis state becomes explicit state records, wall-clock time is an integer
number of seconds, Python floats on the quota/ratio paths are modelled as
rationals, and fallible subprocess calls return `Except`.
-/

namespace Hekate

/-! ## Quota tracker (src/src/hekate/quota.py)

`QuotaTracker.__init__` stores `limit`, `window_hours`, `buffer_percent` and
precomputes `buffer_limit = int(limit * (1 - buffer_percent / 100))` and
`emergency_limit = int(limit * (buffer_percent / 100))`.  For the
configurations used by the repository (e.g. 45/20, 180/3) the float
expression agrees with exact rational arithmetic truncated toward zero,
which is what the natural-number formulas below compute. -/

structure QuotaTracker where
  limit : ℕ
  windowHours : ℕ
  bufferPercent : ℕ
deriving Repr, DecidableEq

def QuotaTracker.bufferLimit (q : QuotaTracker) : ℕ :=
  q.limit * (100 - q.bufferPercent) / 100

def QuotaTracker.emergencyLimit (q : QuotaTracker) : ℕ :=
  q.limit * q.bufferPercent / 100

/-- Redis state behind one tracker: the keys `quota:<provider>:window_start`
(absent or a timestamp, in seconds) and `quota:<provider>:count`. -/
structure QuotaState where
  windowStart : Option ℤ
  count : ℕ
deriving Repr, DecidableEq

/-- `QuotaTracker._ensure_window`: if no window is recorded, start one now
with count 0; if the recorded window started more than `window_hours` ago
(strict comparison, as `timedelta` comparison in the source), reset it. -/
def QuotaTracker.ensureWindow (q : QuotaTracker) (now : ℤ) (st : QuotaState) :
    QuotaState :=
  match st.windowStart with
  | none => { windowStart := some now, count := 0 }
  | some w =>
      if now - w > (q.windowHours : ℤ) * 3600 then
        { windowStart := some now, count := 0 }
      else
        st

/-- Dictionary returned by `QuotaTracker.get_usage`. -/
structure Usage where
  count : ℕ
  limit : ℕ
  percentage : ℚ
  remaining : ℤ
  bufferLimit : ℕ
  emergencyLimit : ℕ
  belowBuffer : Bool
  isEmergency : Bool
deriving Repr, DecidableEq

/-- `QuotaTracker.get_usage`: ensure the window, then report the counters.
The redis read is paired with the state after `_ensure_window`. -/
def QuotaTracker.getUsage (q : QuotaTracker) (now : ℤ) (st : QuotaState) :
    Usage × QuotaState :=
  let st' := q.ensureWindow now st
  let count := st'.count
  ({ count := count
     limit := q.limit
     percentage := (count : ℚ) / (q.limit : ℚ) * 100
     remaining := (q.limit : ℤ) - (count : ℤ)
     bufferLimit := q.bufferLimit
     emergencyLimit := q.emergencyLimit
     belowBuffer := decide (count ≤ q.bufferLimit)
     isEmergency := decide (count ≥ q.bufferLimit) }, st')

/-- `QuotaTracker.can_use(reserve_for_emergency)`: with the flag set it
requires `count < buffer_limit`, without it only `count < limit`. -/
def QuotaTracker.canUse (q : QuotaTracker) (reserveForEmergency : Bool)
    (now : ℤ) (st : QuotaState) : Bool × QuotaState :=
  let (usage, st') := q.getUsage now st
  (if reserveForEmergency then decide (usage.count < q.bufferLimit)
   else decide (usage.count < q.limit), st')

/-- `QuotaTracker.increment`: ensure the window, then atomically increment
the count, returning the new value as `redis.incr` does. -/
def QuotaTracker.increment (q : QuotaTracker) (now : ℤ) (st : QuotaState) :
    ℕ × QuotaState :=
  let st' := q.ensureWindow now st
  (st'.count + 1, { st' with count := st'.count + 1 })

/-! ## Router (src/src/hekate/router.py)

Python values that may sit in a task dictionary under `"complexity"`:
the repository stores strings such as `"simple"`, but the data model also
admits integers 1..10. -/

inductive PyVal where
  | str (s : String)
  | int (n : ℤ)
deriving Repr, DecidableEq

/-- Task dictionary as consumed by the router and the supervisor;
`none` fields model absent keys, read through `.get` with defaults. -/
structure Task where
  id : String
  type? : Option String := none
  complexity? : Option PyVal := none
  previousProvider? : Option String := none
  epicId? : Option String := none
deriving Repr, DecidableEq

/-- `ProviderRouter.__init__` state: per-provider optional quota trackers
(the dictionary maps missing providers and explicit `None` alike to `none`),
and the thresholds dictionary. -/
structure ProviderRouter where
  quotas : String → Option (QuotaTracker × QuotaState)
  thresholds : String → ℚ

/-- `ProviderRouter._can_use_provider`: a provider with no tracker is always
usable; otherwise defer to `can_use`.  `_ensure_window` is idempotent at a
fixed access time, so only the returned boolean matters for routing. -/
def ProviderRouter.canUseProvider (r : ProviderRouter) (now : ℤ)
    (provider : String) (emergency : Bool := false) : Bool :=
  match r.quotas provider with
  | none => true
  | some (q, st) => (q.canUse emergency now st).1

/-- `ProviderRouter._get_quota_percentage`. -/
def ProviderRouter.getQuotaPercentage (r : ProviderRouter) (now : ℤ)
    (provider : String) : ℚ :=
  match r.quotas provider with
  | none => 0
  | some (q, st) => ((q.getUsage now st).1).percentage

/-- `ProviderRouter._route_planning`. -/
def ProviderRouter.routePlanning (r : ProviderRouter) (now : ℤ) : String :=
  if r.canUseProvider now "claude" then "claude"
  else if r.canUseProvider now "openrouter" then "openrouter"
  else "glm"

/-- `ProviderRouter._route_review`: claude is probed with `emergency=True`. -/
def ProviderRouter.routeReview (r : ProviderRouter) (now : ℤ) : String :=
  if r.canUseProvider now "claude" true then "claude" else "glm"

/-- `ProviderRouter._route_verification`. -/
def ProviderRouter.routeVerification (r : ProviderRouter) (now : ℤ) : String :=
  if r.canUseProvider now "glm" then "glm" else "openrouter"

/-- `ProviderRouter._route_implementation`: only the exact strings
`"complex"` and `"medium"` select the quota-consulting branches; every
other complexity value falls through to `"deepseek"`. -/
def ProviderRouter.routeImplementation (r : ProviderRouter) (now : ℤ)
    (complexity : PyVal) : String :=
  if complexity = .str "complex" then
    if r.canUseProvider now "claude" then "claude" else "glm"
  else if complexity = .str "medium" then
    if r.canUseProvider now "claude" ∧
        r.getQuotaPercentage now "claude" < r.thresholds "claude_conservative"
    then "claude"
    else if r.canUseProvider now "glm" then "glm"
    else "deepseek"
  else
    "deepseek"

/-- `ProviderRouter.route_task`: dispatch on `task.get("type",
"implementation")`, with `task.get("complexity", "simple")`. -/
def ProviderRouter.routeTask (r : ProviderRouter) (now : ℤ) (task : Task) :
    String :=
  let complexity := task.complexity?.getD (.str "simple")
  let taskType := task.type?.getD "implementation"
  if taskType = "planning" then r.routePlanning now
  else if taskType = "review" then r.routeReview now
  else if taskType = "verification" then r.routeVerification now
  else r.routeImplementation now complexity

/-! ## Adaptive pattern router hook (src/hooks/PreToolUse/router.py)

`find_best_provider_by_pattern` reads JSON blobs from redis.  The embedding
keeps the parsed records and represents each `.get(key, default)` through
`Option`-valued fields. -/

/-- Feature dictionary built by the hook's `main`; every field is always
populated there. -/
structure Features where
  complexity : ℤ
  toolType : String
  isWriteOp : Bool
  isReadOp : Bool
  isTest : Bool
deriving Repr, DecidableEq

/-- Parsed `routing:pattern:<hash>` record; fields are read with
`pattern.get('provider'|'attempts'|'successes', …)`. -/
structure PatternRecord where
  provider? : Option String := none
  attempts? : Option ℕ := none
  successes? : Option ℕ := none
deriving Repr, DecidableEq

/-- Parsed `provider:complexity:<provider>:<complexity>` record. -/
structure ComplexityStats where
  successRate? : Option ℚ := none
  attempts? : Option ℕ := none
deriving Repr, DecidableEq

/-- Redis contents and hashing as seen by the hook.  `patternAt` and
`statsAt` return `none` for an absent, empty or unparseable value (the
source falls through in exactly those cases). -/
structure PatternEnv where
  featureHash : Features → String
  patternAt : String → Option PatternRecord
  statsAt : String → ℤ → Option ComplexityStats

/-- `successes / attempts` as computed in the hook:
`pattern.get('successes', 0) / pattern.get('attempts', 1)`.  A stored
`attempts = 0` raises `ZeroDivisionError` in Python, which the enclosing
`except` turns into the same fall-through the rational value 0 produces
here. -/
def PatternRecord.successRate (p : PatternRecord) : ℚ :=
  ((p.successes?.getD 0 : ℕ) : ℚ) / ((p.attempts?.getD 1 : ℕ) : ℚ)

/-- Provider iteration order of the complexity-stats loop. -/
def complexityProviders : List String :=
  ["claude", "glm", "deepseek", "openrouter"]

/-- Second component strictly better than the first under the Python key
`(success_rate, attempts)`. -/
def betterScore (a b : String × ℚ × ℕ) : Prop :=
  a.2.1 < b.2.1 ∨ (a.2.1 = b.2.1 ∧ a.2.2 < b.2.2)

instance (a b : String × ℚ × ℕ) : Decidable (betterScore a b) := by
  unfold betterScore
  infer_instance

/-- Python's `max(items, key=...)` returns the first item attaining the
maximum, so the fold replaces the accumulator only on strict improvement. -/
def maxByScore : List (String × ℚ × ℕ) → Option (String × ℚ × ℕ)
  | [] => none
  | x :: xs =>
      some (xs.foldl (fun acc y => if betterScore acc y then y else acc) x)

/-- Complexity-stats half of `find_best_provider_by_pattern`: collect per
`(provider, complexity)` records with ≥ 5 attempts, then pick the best by
`(success_rate, attempts)`; the extra `>= 5` re-check mirrors the source. -/
def findBestByComplexity (env : PatternEnv) (features : Features)
    (currentProvider : String) : String :=
  let scores := complexityProviders.filterMap (fun provider =>
    match env.statsAt provider features.complexity with
    | none => none
    | some stats =>
        let rate := stats.successRate?.getD (1 / 2)
        let attempts := stats.attempts?.getD 0
        if attempts ≥ 5 then some (provider, rate, attempts) else none)
  match maxByScore scores with
  | none => currentProvider
  | some best => if best.2.2 ≥ 5 then best.1 else currentProvider

/-- `find_best_provider_by_pattern`: an exact pattern hit with success rate
above 0.7 and at least 3 attempts wins outright; otherwise fall through to
the complexity statistics. -/
def findBestProviderByPattern (env : PatternEnv) (features : Features)
    (currentProvider : String) : String :=
  match env.patternAt (env.featureHash features) with
  | some pattern =>
      if pattern.successRate > 7 / 10 ∧ pattern.attempts?.getD 0 ≥ 3 then
        pattern.provider?.getD currentProvider
      else
        findBestByComplexity env features currentProvider
  | none => findBestByComplexity env features currentProvider

/-! ## Issue-store client (src/src/hekate/beads.py)

Each method is a single `subprocess.run` invocation.  The embedding records
the exact call — command line, `timeout` argument and `check` flag — and
models the CLI as an oracle from calls to outcomes. -/

/-- Arguments handed to `subprocess.run`: the command line, the `timeout`
keyword (`none` when the source passes no deadline at all) and `check`. -/
structure SubprocessCall where
  cmd : List String
  timeoutSec? : Option ℕ
  check : Bool
deriving Repr, DecidableEq

/-- Completed-process outcome returned by the CLI. -/
structure RunOutcome where
  returncode : ℤ
  stdout : String
deriving Repr, DecidableEq

/-- Exceptions `subprocess.run` raises out of the client. -/
inductive BeadsError where
  | calledProcessError (returncode : ℤ)
deriving Repr, DecidableEq

/-- The `subprocess.run` call made by `BeadsClient.list_ready_tasks`:
note `check := true` and no timeout. -/
def listReadyCall (epicId? : Option String) : SubprocessCall :=
  { cmd := ["bd", "ready", "--json"] ++
      (match epicId? with
       | some epicId => ["--parent", epicId]
       | none => [])
    timeoutSec? := none
    check := true }

/-- The `subprocess.run` call made by `BeadsClient.get_task`. -/
def getTaskCall (taskId : String) : SubprocessCall :=
  { cmd := ["bd", "show", taskId, "--json"]
    timeoutSec? := none
    check := true }

/-- The `subprocess.run` call made by `BeadsClient.claim_task`
(no `check`, no timeout). -/
def claimTaskCall (taskId agentId : String) : SubprocessCall :=
  { cmd := ["bd", "update", taskId, "--metadata", "owner=" ++ agentId]
    timeoutSec? := none
    check := false }

/-- `BeadsClient.list_ready_tasks`: with `check=True`, a non-zero exit
raises `CalledProcessError`; otherwise the stdout JSON is handed to
`json.loads`.  The oracle `run` is the external `bd` CLI. -/
def listReadyTasks (run : SubprocessCall → RunOutcome)
    (epicId? : Option String) : Except BeadsError String :=
  let result := run (listReadyCall epicId?)
  if result.returncode ≠ 0 then
    .error (.calledProcessError result.returncode)
  else
    .ok result.stdout

/-- `BeadsClient.get_task`, same shape as `list_ready_tasks`. -/
def getTask (run : SubprocessCall → RunOutcome) (taskId : String) :
    Except BeadsError String :=
  let result := run (getTaskCall taskId)
  if result.returncode ≠ 0 then
    .error (.calledProcessError result.returncode)
  else
    .ok result.stdout

/-- `BeadsClient.claim_task`: returns `returncode == 0`, never raises for a
completed process (no `check=True` here). -/
def claimTask (run : SubprocessCall → RunOutcome) (taskId agentId : String) :
    Bool :=
  decide ((run (claimTaskCall taskId agentId)).returncode = 0)

/-! ## Supervisor (src/src/hekate/supervisor.py)

`run_iteration` / `_assign_task` touch redis owner keys, the Beads CLI, the
router and the agent manager.  The redis keys `task:<id>:owner` are modelled
as the list of task ids currently holding an owner key; the per-provider
agent pools mirror `self.agent_pools`. -/

/-- One entry of `self.agent_pools`: provider name, configured `size`, and
the `active` agent-id list. -/
structure Pool where
  provider : String
  size : ℕ
  active : List String
deriving Repr, DecidableEq

/-- Supervisor-visible shared state. -/
structure SupState where
  owners : List String
  pools : List Pool
deriving Repr, DecidableEq

/-- External collaborators of `_assign_task`: the router decision, the
Beads advisory claim, and `AgentManager.spawn_agent` — which either returns
a fresh agent id or raises out of `subprocess.Popen` (`none`). -/
structure SupEnv where
  route : Task → String
  beadsClaimOk : String → Bool
  spawnResult : String → String → Option String

/-- `Supervisor._claim_task_in_redis`: `SET task:<id>:owner <provider> NX
EX 3600`; succeeds exactly when the key is absent. -/
def claimTaskInRedis (st : SupState) (taskId : String) : Bool × SupState :=
  if taskId ∈ st.owners then (false, st)
  else (true, { st with owners := taskId :: st.owners })

/-- `Supervisor._unclaim_task_in_redis`: `DEL task:<id>:owner`. -/
def unclaimTaskInRedis (st : SupState) (taskId : String) : SupState :=
  { st with owners := st.owners.erase taskId }

/-- `Supervisor._is_task_claimed`: `EXISTS task:<id>:owner`. -/
def isTaskClaimed (st : SupState) (taskId : String) : Bool :=
  decide (taskId ∈ st.owners)

/-- Append a freshly spawned agent id to the routed provider's pool
(`self.agent_pools[provider]["active"].append(agent_id)`). -/
def addToPool (st : SupState) (provider agentId : String) : SupState :=
  { st with pools := st.pools.map (fun p =>
      if p.provider = provider then { p with active := p.active ++ [agentId] }
      else p) }

/-- How one `_assign_task` call ended. -/
inductive AssignResult where
  | notClaimed
  | beadsRefused
  | spawnRaised
  | spawned (agentId : String)
deriving Repr, DecidableEq

/-- `Supervisor._assign_task`: route, claim in redis (return on conflict),
claim in Beads (on refusal delete the redis owner key and return), then
spawn.  A `spawnRaised` outcome is the `Popen` exception propagating: the
state it leaves behind still contains the owner key, and no pool changes. -/
def assignTask (env : SupEnv) (st : SupState) (task : Task) :
    SupState × AssignResult :=
  let provider := env.route task
  let (claimed, st1) := claimTaskInRedis st task.id
  if ¬claimed then (st1, .notClaimed)
  else if ¬env.beadsClaimOk task.id then
    (unclaimTaskInRedis st1 task.id, .beadsRefused)
  else
    match env.spawnResult provider task.id with
    | none => (st1, .spawnRaised)
    | some agentId => (addToPool st1 provider agentId, .spawned agentId)

/-- `Supervisor._can_assign_task`: total active agents below total pool
capacity. -/
def canAssignTask (st : SupState) : Bool :=
  decide ((st.pools.map (fun p => p.active.length)).sum <
    (st.pools.map (fun p => p.size)).sum)

/-- The `for task in unclaimed_tasks` loop of `run_iteration`: the first
task that passes `_can_assign_task` is assigned and the loop breaks
(also when the assignment raises).  Returns the state, the number of
`_assign_task` invocations, and the last assignment outcome. -/
def runIterationLoop (env : SupEnv) (st : SupState) :
    List Task → SupState × ℕ × Option AssignResult
  | [] => (st, 0, none)
  | task :: rest =>
      if canAssignTask st then
        let (st', result) := assignTask env st task
        (st', 1, some result)
      else
        runIterationLoop env st rest

/-- `Supervisor.run_iteration`: fetch ready tasks, return early when none,
filter out tasks whose owner key exists, return early when none remain,
then run the assignment loop. -/
def runIteration (env : SupEnv) (st : SupState) (readyTasks : List Task) :
    SupState × ℕ × Option AssignResult :=
  if readyTasks.isEmpty then (st, 0, none)
  else
    let unclaimed := readyTasks.filter (fun t => ¬isTaskClaimed st t.id)
    if unclaimed.isEmpty then (st, 0, none)
    else runIterationLoop env st unclaimed

/-! ## Completion hook (src/hooks/PostToolUse/complete_task.py)

The hook fires on every post-tool-use event; on a Bash command containing
`git commit` or `git push` it closes the task, sets the task status key,
unconditionally increments the epic's `complete_count`, and marks the epic
complete when the new count reaches `task_count`. -/

/-- Python's substring test `sub in s`. -/
def containsSubstring (s sub : String) : Bool :=
  decide (sub.toList <:+: s.toList)

/-- The hook's input envelope, after JSON decoding: session id, the tool
name and, for Bash, the command line. -/
structure HookEvent where
  sessionId : String
  toolName : String
  command : String
deriving Repr, DecidableEq

/-- Redis bindings the hook reads: `session:<sid>:task_id` and
`task:<tid>:epic_id`. -/
structure CompleteEnv where
  sessionTask : String → Option String
  taskEpic : String → Option String

/-- Redis state the hook writes: `task:<tid>:status`,
`epic:<e>:complete_count`, `epic:<e>:task_count` (read-only here, absent
keys read as 0) and `epic:<e>:status`. -/
structure CompleteState where
  taskStatus : String → Option String
  completeCount : String → ℕ
  taskCount : String → ℕ
  epicStatus : String → Option String

/-- Pointwise update of a string-keyed map. -/
def setKey {α : Type} (f : String → α) (k : String) (v : α) : String → α :=
  fun k' => if k' = k then v else f k'

/-- `main` of the completion hook as a transition on the redis state.
The `INCR` of `epic:<e>:complete_count` is unconditional — there is no
check that the task was not already completed — and the epic is marked
complete as soon as the incremented count reaches `task_count` (the
`new_count and task_count and new_count >= task_count` test: `new_count`
is truthy after `INCR`, `task_count` must be non-zero). -/
def completeTaskHook (env : CompleteEnv) (st : CompleteState)
    (ev : HookEvent) : CompleteState :=
  match env.sessionTask ev.sessionId with
  | none => st
  | some taskId =>
      if ev.toolName = "Bash" ∧
          (containsSubstring ev.command "git commit" ∨
           containsSubstring ev.command "git push") then
        match env.taskEpic taskId with
        | none => st
        | some epicId =>
            let st1 := { st with
              taskStatus := setKey st.taskStatus taskId (some "complete") }
            let newCount := st1.completeCount epicId + 1
            let st2 := { st1 with
              completeCount := setKey st1.completeCount epicId newCount }
            let taskCount := st2.taskCount epicId
            if taskCount ≠ 0 ∧ newCount ≥ taskCount then
              { st2 with
                epicStatus := setKey st2.epicStatus epicId (some "complete") }
            else st2
      else st

/-- Apply a sequence of hook events in order. -/
def completeTaskRun (env : CompleteEnv) (st : CompleteState) :
    List HookEvent → CompleteState
  | [] => st
  | ev :: evs => completeTaskRun env (completeTaskHook env st ev) evs

/-! ## Verification slots (src/hooks/PostToolUse/verify_prefetch.py and
src/hooks/PreToolUse/verify_inject.py)

One slot `verify:prefetch:<task>:<provider>` is a state machine driven by
two events: the prefetch hook's `start_verification_async`, which
unconditionally overwrites the key with a fresh `pending` record, and the
inject hook's `check_verification_status`, which flips a `pending` record
to `complete` once it is more than 30 seconds old (and leaves `complete`
records untouched).  TTL expiry is outside this model; the claims concern
the observations before expiry. -/

inductive VStatus where
  | pending
  | complete
deriving Repr, DecidableEq

/-- Stored slot record (`status`, creation `timestamp`, `completed_at`). -/
structure SlotData where
  status : VStatus
  timestamp : ℤ
  completedAt : Option ℤ
deriving Repr, DecidableEq

/-- An event touching one fixed slot, with its wall-clock time. -/
inductive VEvent where
  | prefetch (now : ℤ)
  | inject (now : ℤ)
deriving Repr, DecidableEq

def VEvent.isPrefetch : VEvent → Bool
  | .prefetch _ => true
  | .inject _ => false

/-- One event step on a slot.  `start_verification_async` SETs the key to a
fresh pending record whatever was there before; `check_verification_status`
completes a pending record strictly older than 30 seconds. -/
def slotStep (slot : Option SlotData) (ev : VEvent) : Option SlotData :=
  match ev with
  | .prefetch now => some { status := .pending, timestamp := now, completedAt := none }
  | .inject now =>
      match slot with
      | none => none
      | some data =>
          if data.status = .pending ∧ now - data.timestamp > 30 then
            some { status := .complete, timestamp := data.timestamp,
                   completedAt := some now }
          else
            some data

/-- Status observed after each event at which the slot exists. -/
def statusesFrom (slot : Option SlotData) : List VEvent → List VStatus
  | [] => []
  | ev :: evs =>
      let slot' := slotStep slot ev
      (match slot' with
       | none => []
       | some data => [data.status]) ++ statusesFrom slot' evs

/-- Collapse consecutive repetitions, leaving the sequence of distinct
observed values. -/
def dedupStatuses : List VStatus → List VStatus
  | [] => []
  | [s] => [s]
  | s :: s' :: rest =>
      if s = s' then dedupStatuses (s' :: rest)
      else s :: dedupStatuses (s' :: rest)

/-! ## Claim theorems -/

/-- C1 (counterexample): with `limit=45, buffer_percent=20` and a live
window holding `count = 36`, the code returns `can_use(false) = true` and
`can_use(true) = false` — the claim asserts `can_use(false)` is false at
`count ≥ 36` and `can_use(true)` is true up to 45, i.e. it attaches the
bounds to the wrong flag values. -/
theorem C1_counterexample :
    ((⟨45, 5, 20⟩ : QuotaTracker).canUse false 0 ⟨some 0, 36⟩).1 = true ∧
    ((⟨45, 5, 20⟩ : QuotaTracker).canUse true 0 ⟨some 0, 36⟩).1 = false ∧
    (⟨45, 5, 20⟩ : QuotaTracker).bufferLimit = 36 := by
  refine ⟨rfl, rfl, rfl⟩

/-- C1 (amended): inside a window that has not expired,
`can_use(reserve_for_emergency=false)` holds exactly when `count < limit`,
and `can_use(reserve_for_emergency=true)` enforces the stricter bound
`count < buffer_limit = int(limit * (1 - buffer_percent/100))`; with
`limit=45, buffer_percent=20` those bounds are 45 and 36 respectively. -/
theorem C1_canUse_bounds (q : QuotaTracker) (count : ℕ) (w now : ℤ)
    (h : ¬(now - w > (q.windowHours : ℤ) * 3600)) :
    (q.canUse false now ⟨some w, count⟩).1 = decide (count < q.limit) ∧
    (q.canUse true now ⟨some w, count⟩).1 = decide (count < q.bufferLimit) := by
  unfold QuotaTracker.canUse QuotaTracker.getUsage QuotaTracker.ensureWindow
  simp [h]

theorem C1_canUse_bounds_witness :
    ((⟨45, 5, 20⟩ : QuotaTracker).canUse false 0 ⟨some 0, 44⟩).1 =
      decide (44 < (45 : ℕ)) ∧
    ((⟨45, 5, 20⟩ : QuotaTracker).canUse true 0 ⟨some 0, 44⟩).1 =
      decide (44 < (⟨45, 5, 20⟩ : QuotaTracker).bufferLimit) :=
  C1_canUse_bounds ⟨45, 5, 20⟩ 44 0 0 (by decide)

/-- C8: on any access (`increment` or `get_usage`), a window whose recorded
start lies more than `window_hours` in the past is reset — `window_start`
becomes `now` and `count` restarts from 0 (so the increment lands on a
fresh window and yields 1); a window that has not expired is left in place
and the tracker never decreases `count` within it. -/
theorem C8_window_reset_and_monotonic (q : QuotaTracker) (st : QuotaState)
    (w now : ℤ) (hw : st.windowStart = some w) :
    (now - w > (q.windowHours : ℤ) * 3600 →
      q.ensureWindow now st = ⟨some now, 0⟩ ∧
      ((q.getUsage now st).2).count = 0 ∧
      (q.increment now st).1 = 1 ∧
      ((q.increment now st).2).windowStart = some now) ∧
    (¬(now - w > (q.windowHours : ℤ) * 3600) →
      q.ensureWindow now st = st ∧
      ((q.getUsage now st).2).count = st.count ∧
      (q.increment now st).2.count = st.count + 1) := by
  constructor
  · intro h
    have he : q.ensureWindow now st = ⟨some now, 0⟩ := by
      unfold QuotaTracker.ensureWindow
      rw [hw]
      simp [h]
    refine ⟨he, ?_, ?_, ?_⟩ <;>
      simp [QuotaTracker.getUsage, QuotaTracker.increment, he]
  · intro h
    have he : q.ensureWindow now st = st := by
      unfold QuotaTracker.ensureWindow
      rw [hw]
      simp [h]
    refine ⟨he, ?_, ?_⟩ <;>
      simp [QuotaTracker.getUsage, QuotaTracker.increment, he]

theorem C8_window_reset_and_monotonic_witness :
    ((6 : ℤ) * 3600 - 0 > ((5 : ℕ) : ℤ) * 3600 →
      (⟨45, 5, 20⟩ : QuotaTracker).ensureWindow (6 * 3600) ⟨some 0, 2⟩ =
        ⟨some (6 * 3600), 0⟩ ∧
      (((⟨45, 5, 20⟩ : QuotaTracker).getUsage (6 * 3600) ⟨some 0, 2⟩).2).count = 0 ∧
      ((⟨45, 5, 20⟩ : QuotaTracker).increment (6 * 3600) ⟨some 0, 2⟩).1 = 1 ∧
      (((⟨45, 5, 20⟩ : QuotaTracker).increment (6 * 3600) ⟨some 0, 2⟩).2).windowStart =
        some (6 * 3600)) ∧
    (¬((6 : ℤ) * 3600 - 0 > ((5 : ℕ) : ℤ) * 3600) →
      (⟨45, 5, 20⟩ : QuotaTracker).ensureWindow (6 * 3600) ⟨some 0, 2⟩ = ⟨some 0, 2⟩ ∧
      (((⟨45, 5, 20⟩ : QuotaTracker).getUsage (6 * 3600) ⟨some 0, 2⟩).2).count = 2 ∧
      ((⟨45, 5, 20⟩ : QuotaTracker).increment (6 * 3600) ⟨some 0, 2⟩).2.count = 2 + 1) :=
  C8_window_reset_and_monotonic ⟨45, 5, 20⟩ ⟨some 0, 2⟩ 0 (6 * 3600) rfl

/-- C2: whenever the feature-vector hash of a task has a recorded routing
pattern with at least 3 attempts and success rate above 0.7,
`find_best_provider_by_pattern` returns that pattern's provider, whatever
provider the static policy (`current_provider`) suggested. -/
theorem C2_pattern_override (env : PatternEnv) (features : Features)
    (current provider : String) (attempts successes : ℕ)
    (hp : env.patternAt (env.featureHash features) =
      some { provider? := some provider, attempts? := some attempts,
             successes? := some successes })
    (ha : 3 ≤ attempts)
    (hr : (7 : ℚ) / 10 < (successes : ℚ) / (attempts : ℚ)) :
    findBestProviderByPattern env features current = provider := by
  simp only [findBestProviderByPattern, hp]
  rw [if_pos]
  · rfl
  · exact ⟨by simpa [PatternRecord.successRate] using hr, by simpa using ha⟩

/-- Redis contents of the adaptive-override scenario: feature hash `H`
holds `(provider=glm, attempts=4, successes=4)`. -/
def patternEnvGlm : PatternEnv :=
  { featureHash := fun _ => "H"
    patternAt := fun key =>
      if key = "H" then
        some { provider? := some "glm", attempts? := some 4, successes? := some 4 }
      else none
    statsAt := fun _ _ => none }

/-- Feature vector of a simple write task, whose static policy pick —
passed to the hook as `current_provider` — is deepseek. -/
def featuresSimple : Features :=
  { complexity := 3, toolType := "Write", isWriteOp := true,
    isReadOp := false, isTest := false }

theorem C2_pattern_override_witness :
    findBestProviderByPattern patternEnvGlm featuresSimple "deepseek" = "glm" :=
  C2_pattern_override patternEnvGlm featuresSimple "deepseek" "glm" 4 4
    (by decide) (by decide) (by norm_num)

/-- C10: a task whose `type` is none of planning/review/verification and
whose `complexity` value is neither the exact string `"complex"` nor
`"medium"` — in particular any integer complexity, or an absent key — is
routed to `"deepseek"`.  The theorem holds for every router state `r`, so
the result consults no quota tracker. -/
theorem C10_default_route_deepseek (r : ProviderRouter) (now : ℤ) (task : Task)
    (h1 : task.type?.getD "implementation" ≠ "planning")
    (h2 : task.type?.getD "implementation" ≠ "review")
    (h3 : task.type?.getD "implementation" ≠ "verification")
    (h4 : task.complexity?.getD (.str "simple") ≠ .str "complex")
    (h5 : task.complexity?.getD (.str "simple") ≠ .str "medium") :
    r.routeTask now task = "deepseek" := by
  unfold ProviderRouter.routeTask ProviderRouter.routeImplementation
  simp [h1, h2, h3, h4, h5]

theorem C10_default_route_deepseek_witness :
    ProviderRouter.routeTask
      ⟨fun _ => some (⟨45, 5, 20⟩, ⟨some 0, 44⟩), fun _ => 40⟩ 0
      { id := "t1", complexity? := some (.int 7) } = "deepseek" :=
  C10_default_route_deepseek
    ⟨fun _ => some (⟨45, 5, 20⟩, ⟨some 0, 44⟩), fun _ => 40⟩ 0
    { id := "t1", complexity? := some (.int 7) }
    (by decide) (by decide) (by decide) (by decide) (by decide)

/-- The assignment loop performs at most one `_assign_task` call: it breaks
right after the first assignment. -/
theorem runIterationLoop_count_le_one (env : SupEnv) (st : SupState) :
    ∀ tasks : List Task, (runIterationLoop env st tasks).2.1 ≤ 1 := by
  intro tasks
  induction tasks with
  | nil => simp [runIterationLoop]
  | cons task rest ih =>
      unfold runIterationLoop
      by_cases h : canAssignTask st
      · simp [h]
      · simpa [h] using ih

/-- C9: one `run_iteration` invocation makes at most one new task
assignment, however many unclaimed ready tasks the issue store returned. -/
theorem C9_at_most_one_assignment (env : SupEnv) (st : SupState)
    (readyTasks : List Task) :
    (runIteration env st readyTasks).2.1 ≤ 1 := by
  unfold runIteration
  split
  · simp
  · dsimp only
    split
    · simp
    · exact runIterationLoop_count_le_one env st _

/-- C7: when the redis claim of a task succeeds (its owner key was absent)
but the advisory Beads claim fails, `_assign_task` deletes the owner key
again and returns without spawning: the state is exactly what it was before
the attempt. -/
theorem C7_advisory_failure_reverts_claim (env : SupEnv) (st : SupState)
    (task : Task)
    (hfree : task.id ∉ st.owners)
    (hbeads : env.beadsClaimOk task.id = false) :
    assignTask env st task = (st, .beadsRefused) := by
  unfold assignTask claimTaskInRedis unclaimTaskInRedis
  simp [hfree, hbeads]

theorem C7_advisory_failure_reverts_claim_witness :
    assignTask ⟨fun _ => "deepseek", fun _ => false, fun _ _ => none⟩
      ⟨[], [⟨"deepseek", 6, []⟩]⟩ { id := "t1" } =
      (⟨[], [⟨"deepseek", 6, []⟩]⟩, .beadsRefused) :=
  C7_advisory_failure_reverts_claim
    ⟨fun _ => "deepseek", fun _ => false, fun _ _ => none⟩
    ⟨[], [⟨"deepseek", 6, []⟩]⟩ { id := "t1" } (by decide) rfl

/-- Assignment environment in which `spawn_agent` always raises out of
`subprocess.Popen` while routing and the Beads claim succeed. -/
def spawnFailEnv : SupEnv :=
  { route := fun _ => "glm"
    beadsClaimOk := fun _ => true
    spawnResult := fun _ _ => none }

/-- C6 (counterexample): with an empty store, a spawn failure for task `t1`
leaves the coordination-store owner key `task:t1:owner` present — the claim
that the task is left unclaimed after the failure is false. -/
theorem C6_counterexample :
    ((assignTask spawnFailEnv ⟨[], [⟨"glm", 4, []⟩]⟩ { id := "t1" }).1.owners
      = ["t1"]) ∧
    (assignTask spawnFailEnv ⟨[], [⟨"glm", 4, []⟩]⟩ { id := "t1" }).2 =
      .spawnRaised := by
  refine ⟨rfl, rfl⟩

/-- C6 (amended): if the child process cannot be created, the `Popen`
exception propagates out of `_assign_task`: the owner key set by the redis
claim remains present (the task stays claimed until its 1 h TTL), no agent
is added to any pool, and — since the iteration loop stops at the first
assignment attempt — the supervisor does not retry the task in the same
tick. -/
theorem C6_spawn_failure_leaves_claim (env : SupEnv) (st : SupState)
    (task : Task) (rest : List Task)
    (hfree : task.id ∉ st.owners)
    (hbeads : env.beadsClaimOk task.id = true)
    (hspawn : env.spawnResult (env.route task) task.id = none) :
    assignTask env st task =
      ({ st with owners := task.id :: st.owners }, .spawnRaised) ∧
    (canAssignTask st = true →
      runIterationLoop env st (task :: rest) =
        ({ st with owners := task.id :: st.owners }, 1, some .spawnRaised)) := by
  have hassign : assignTask env st task =
      ({ st with owners := task.id :: st.owners }, .spawnRaised) := by
    unfold assignTask claimTaskInRedis
    simp [hfree, hbeads, hspawn]
  refine ⟨hassign, fun hcan => ?_⟩
  unfold runIterationLoop
  simp [hcan, hassign]

theorem C6_spawn_failure_leaves_claim_witness :
    assignTask spawnFailEnv ⟨[], [⟨"glm", 4, []⟩]⟩ { id := "t2" } =
      (⟨["t2"], [⟨"glm", 4, []⟩]⟩, .spawnRaised) ∧
    (canAssignTask ⟨[], [⟨"glm", 4, []⟩]⟩ = true →
      runIterationLoop spawnFailEnv ⟨[], [⟨"glm", 4, []⟩]⟩ [{ id := "t2" }] =
        (⟨["t2"], [⟨"glm", 4, []⟩]⟩, 1, some .spawnRaised)) :=
  C6_spawn_failure_leaves_claim spawnFailEnv ⟨[], [⟨"glm", 4, []⟩]⟩
    { id := "t2" } [] (by decide) rfl rfl

/-- C4 (counterexample): `BeadsClient.list_ready_tasks` invokes the CLI
with `check=True` and no timeout; when the `bd` process exits non-zero the
call raises `CalledProcessError` instead of returning an empty list, so
"list_ready_tasks never raises" is false. -/
theorem C4_counterexample :
    listReadyTasks (fun _ => ⟨2, ""⟩) none =
      .error (.calledProcessError 2) ∧
    (listReadyCall none).timeoutSec? = none := by
  refine ⟨rfl, rfl⟩

/-- C4 (amended): the `subprocess.run` calls of `list_ready_tasks` and
`get_task` carry no timeout argument at all (there is no 10-second
deadline), and with `check=True` any non-zero exit of the external CLI
raises `CalledProcessError` to the caller rather than yielding an
empty/none result. -/
theorem C4_beads_no_deadline_raises (run : SubprocessCall → RunOutcome)
    (epicId? : Option String) (taskId : String)
    (hl : (run (listReadyCall epicId?)).returncode ≠ 0)
    (hg : (run (getTaskCall taskId)).returncode ≠ 0) :
    (listReadyCall epicId?).timeoutSec? = none ∧
    (getTaskCall taskId).timeoutSec? = none ∧
    listReadyTasks run epicId? =
      .error (.calledProcessError (run (listReadyCall epicId?)).returncode) ∧
    getTask run taskId =
      .error (.calledProcessError (run (getTaskCall taskId)).returncode) := by
  refine ⟨rfl, rfl, ?_, ?_⟩
  · unfold listReadyTasks
    simp [hl]
  · unfold getTask
    simp [hg]

theorem C4_beads_no_deadline_raises_witness :
    (listReadyCall none).timeoutSec? = none ∧
    (getTaskCall "t1").timeoutSec? = none ∧
    listReadyTasks (fun _ => ⟨1, ""⟩) none =
      .error (.calledProcessError ((fun (_ : SubprocessCall) =>
        (⟨1, ""⟩ : RunOutcome)) (listReadyCall none)).returncode) ∧
    getTask (fun _ => ⟨1, ""⟩) "t1" =
      .error (.calledProcessError ((fun (_ : SubprocessCall) =>
        (⟨1, ""⟩ : RunOutcome)) (getTaskCall "t1")).returncode) :=
  C4_beads_no_deadline_raises (fun _ => ⟨1, ""⟩) none "t1" (by decide) (by decide)

/-- Session and epic bindings for the completion scenario: session `s1` is
bound to task `t1`, which belongs to epic `e1`. -/
def commitEnv : CompleteEnv :=
  { sessionTask := fun sid => if sid = "s1" then some "t1" else none
    taskEpic := fun tid => if tid = "t1" then some "e1" else none }

/-- Initial redis state: epic `e1` has `task_count = 1` and
`complete_count = 0`; nothing is complete yet. -/
def initialEpicState : CompleteState :=
  { taskStatus := fun _ => none
    completeCount := fun _ => 0
    taskCount := fun eid => if eid = "e1" then 1 else 0
    epicStatus := fun _ => none }

/-- A post-tool-use event whose Bash command carries a git commit. -/
def commitEvent : HookEvent :=
  { sessionId := "s1", toolName := "Bash", command := "git commit -m done" }

/-- C3 (code bug): the completion hook increments `epic:<e>:complete_count`
on every git-commit event with no idempotency guard, so two commit events
for the same task of a one-task epic drive `complete_count` to 2, strictly
above `task_count = 1` — the invariant `complete_count ≤ task_count` fails
on the code. -/
theorem C3_double_commit_overcount :
    (completeTaskRun commitEnv initialEpicState
      [commitEvent, commitEvent]).completeCount "e1" = 2 ∧
    (completeTaskRun commitEnv initialEpicState
      [commitEvent, commitEvent]).taskCount "e1" = 1 ∧
    ¬((completeTaskRun commitEnv initialEpicState
        [commitEvent, commitEvent]).completeCount "e1" ≤
      (completeTaskRun commitEnv initialEpicState
        [commitEvent, commitEvent]).taskCount "e1") := by
  refine ⟨by decide, by decide, by decide⟩

/-- Reduction of `slotStep` at an inject event on an existing slot. -/
theorem slotStep_inject (d : SlotData) (now : ℤ) :
    slotStep (some d) (.inject now) =
      if d.status = VStatus.pending ∧ now - d.timestamp > 30 then
        some { status := .complete, timestamp := d.timestamp,
               completedAt := some now }
      else some d := rfl

/-- An inject step never changes a completed slot. -/
theorem slotStep_complete (d : SlotData) (hd : d.status = .complete)
    (now : ℤ) : slotStep (some d) (.inject now) = some d := by
  rw [slotStep_inject, if_neg]
  simp [hd]

/-- With no further prefetch events, a completed slot is observed as
`complete` at every subsequent inject. -/
theorem statusesFrom_complete (d : SlotData) (hd : d.status = .complete) :
    ∀ es : List VEvent, (∀ e ∈ es, e.isPrefetch = false) →
    statusesFrom (some d) es = List.replicate es.length .complete := by
  intro es
  induction es with
  | nil => intro _; simp [statusesFrom]
  | cons e es ih =>
      intro hall
      cases e with
      | prefetch now =>
          have := hall _ (List.mem_cons_self _ _)
          simp [VEvent.isPrefetch] at this
      | inject now =>
          have hrest := ih (fun e he => hall e (List.mem_cons_of_mem _ he))
          simp [statusesFrom, slotStep_complete d hd now, hrest, hd,
            List.replicate_succ]

/-- With no further prefetch events, the observations of a pending slot
are some (possibly empty) run of `pending` followed by a (possibly empty)
run of `complete`. -/
theorem statusesFrom_pending :
    ∀ es : List VEvent, ∀ d : SlotData, d.status = .pending →
    (∀ e ∈ es, e.isPrefetch = false) →
    ∃ a b, statusesFrom (some d) es =
      List.replicate a VStatus.pending ++ List.replicate b VStatus.complete := by
  intro es
  induction es with
  | nil => exact fun d _ _ => ⟨0, 0, by simp [statusesFrom]⟩
  | cons e es ih =>
      intro d hd hall
      cases e with
      | prefetch now =>
          have := hall _ (List.mem_cons_self _ _)
          simp [VEvent.isPrefetch] at this
      | inject now =>
          have hall' : ∀ e ∈ es, e.isPrefetch = false :=
            fun e he => hall e (List.mem_cons_of_mem _ he)
          by_cases hflip : now - d.timestamp > 30
          · have hstep : slotStep (some d) (.inject now) =
                some ⟨.complete, d.timestamp, some now⟩ := by
              rw [slotStep_inject, if_pos ⟨hd, hflip⟩]
            have hrest := statusesFrom_complete
              ⟨.complete, d.timestamp, some now⟩ rfl es hall'
            refine ⟨0, es.length + 1, ?_⟩
            simp [statusesFrom, hstep, hrest, List.replicate_succ]
          · have hstep : slotStep (some d) (.inject now) = some d := by
              rw [slotStep_inject, if_neg]
              intro hcon
              exact hflip hcon.2
            obtain ⟨a, b, hab⟩ := ih d hd hall'
            refine ⟨a + 1, b, ?_⟩
            simp [statusesFrom, hstep, hab, hd, List.replicate_succ]

/-- With no prefetch event at all the slot never exists, and nothing is
observed. -/
theorem statusesFrom_absent :
    ∀ es : List VEvent, (∀ e ∈ es, e.isPrefetch = false) →
    statusesFrom (none : Option SlotData) es = [] := by
  intro es
  induction es with
  | nil => intro _; simp [statusesFrom]
  | cons e es ih =>
      intro hall
      cases e with
      | prefetch now =>
          have := hall _ (List.mem_cons_self _ _)
          simp [VEvent.isPrefetch] at this
      | inject now =>
          simp [statusesFrom, slotStep,
            ih (fun e he => hall e (List.mem_cons_of_mem _ he))]

/-- Collapsing a non-empty run of `complete`. -/
theorem dedup_replicate_complete :
    ∀ n : ℕ, dedupStatuses (List.replicate (n + 1) VStatus.complete) =
      [VStatus.complete] := by
  intro n
  induction n with
  | zero => rfl
  | succ k ih =>
      rw [List.replicate_succ]
      rw [List.replicate_succ]
      simp only [dedupStatuses, if_pos rfl]
      rw [← List.replicate_succ]
      exact ih

/-- Collapsing a non-empty run of `pending` followed by a run of
`complete`. -/
theorem dedup_pending_complete :
    ∀ (a b : ℕ),
    dedupStatuses (List.replicate (a + 1) VStatus.pending ++
      List.replicate b VStatus.complete) =
      if b = 0 then [VStatus.pending] else [VStatus.pending, VStatus.complete] := by
  intro a
  induction a with
  | zero =>
      intro b
      cases b with
      | zero => rfl
      | succ k =>
          simp only [List.replicate_succ, List.replicate, List.cons_append,
            List.nil_append]
          simp only [dedupStatuses, if_neg (by decide : ¬VStatus.pending = VStatus.complete)]
          rw [← List.replicate_succ]
          rw [dedup_replicate_complete k]
          simp
  | succ j ih =>
      intro b
      have : List.replicate (j + 1 + 1) VStatus.pending ++
          List.replicate b VStatus.complete =
          VStatus.pending :: (List.replicate (j + 1) VStatus.pending ++
            List.replicate b VStatus.complete) := by
        rw [List.replicate_succ]
        simp
      rw [this]
      have hhead : ∃ rest, List.replicate (j + 1) VStatus.pending ++
          List.replicate b VStatus.complete = VStatus.pending :: rest := by
        rw [List.replicate_succ]
        exact ⟨List.replicate j VStatus.pending ++
          List.replicate b VStatus.complete, by simp⟩
      obtain ⟨rest, hrest⟩ := hhead
      rw [hrest]
      simp only [dedupStatuses, if_pos rfl]
      rw [← hrest]
      exact ih b

/-- C5 (amended): over any interleaving in which the prefetch hook creates
the slot at most once, the sequence of distinct observed status values is a
prefix of `pending, complete`: injects only advance `pending` to `complete`
and a completed slot stays complete.  (A second prefetch overwrites the
slot with a fresh `pending` record, which is what the unamended claim
fails on.) -/
theorem C5_single_prefetch_status_monotone :
    ∀ events : List VEvent,
    events.countP (fun e => e.isPrefetch) ≤ 1 →
    dedupStatuses (statusesFrom none events) <+:
      [VStatus.pending, VStatus.complete] := by
  intro events
  induction events with
  | nil => exact fun _ => ⟨[VStatus.pending, VStatus.complete], rfl⟩
  | cons e es ih =>
      intro h
      cases e with
      | inject now =>
          have htrace : statusesFrom none (.inject now :: es) =
              statusesFrom none es := by
            simp [statusesFrom, slotStep]
          rw [htrace]
          apply ih
          calc es.countP (fun e => e.isPrefetch)
              ≤ (VEvent.inject now :: es).countP (fun e => e.isPrefetch) := by
                simp [List.countP_cons]
            _ ≤ 1 := h
      | prefetch now =>
          have hcnt : es.countP (fun e => e.isPrefetch) = 0 := by
            have h2 : (VEvent.prefetch now :: es).countP (fun e => e.isPrefetch) =
                es.countP (fun e => e.isPrefetch) + 1 := by
              rw [List.countP_cons]
              simp [VEvent.isPrefetch]
            omega
          have hall : ∀ e ∈ es, e.isPrefetch = false := by
            intro e he
            have := List.countP_eq_zero.mp hcnt e he
            simpa using this
          obtain ⟨a, b, hab⟩ :=
            statusesFrom_pending es ⟨.pending, now, none⟩ rfl hall
          have htrace : statusesFrom none (.prefetch now :: es) =
              List.replicate (a + 1) VStatus.pending ++
                List.replicate b VStatus.complete := by
            simp [statusesFrom, slotStep, hab, List.replicate_succ]
          rw [htrace, dedup_pending_complete a b]
          by_cases hb : b = 0
          all_goals simp only [hb, if_pos, if_neg, if_true, if_false]
          · exact ⟨[VStatus.complete], rfl⟩
          · exact ⟨[], List.append_nil _⟩

theorem C5_single_prefetch_status_monotone_witness :
    ([VEvent.prefetch 0, VEvent.inject 31,
        VEvent.inject 40].countP (fun e => e.isPrefetch) ≤ 1) ∧
    dedupStatuses (statusesFrom none
      [VEvent.prefetch 0, VEvent.inject 31, VEvent.inject 40]) <+:
      [VStatus.pending, VStatus.complete] :=
  ⟨by decide, C5_single_prefetch_status_monotone
    [VEvent.prefetch 0, VEvent.inject 31, VEvent.inject 40] (by decide)⟩

/-- C5 (counterexample): prefetch at t=0, inject at t=31 (completes the
slot), prefetch again at t=40 — the slot is observed `pending` again after
`complete`, so the observed sequence `pending, complete, pending` is not a
prefix of `pending, complete`. -/
theorem C5_counterexample :
    dedupStatuses (statusesFrom none
      [VEvent.prefetch 0, VEvent.inject 31, VEvent.prefetch 40]) =
      [VStatus.pending, VStatus.complete, VStatus.pending] ∧
    ¬(dedupStatuses (statusesFrom none
        [VEvent.prefetch 0, VEvent.inject 31, VEvent.prefetch 40]) <+:
      [VStatus.pending, VStatus.complete]) := by
  refine ⟨by decide, ?_⟩
  intro hpre
  have hlen := hpre.length_le
  have heq : dedupStatuses (statusesFrom none
      [VEvent.prefetch 0, VEvent.inject 31, VEvent.prefetch 40]) =
      [VStatus.pending, VStatus.complete, VStatus.pending] := by decide
  rw [heq] at hlen
  simp at hlen
